import Mathlib

/-!
Shallow embedding of the RPC engine in `lib/rpc_socket.ts` of the
transparent-rpc repository, together with theorems checking the
specification's claims about it.

JavaScript objects crossing the marshaller are modelled by the `Value`
type; object identity of stubbable application objects is modelled by a
numeric key carried in the `Stubbable` structure.  JS `Map`s are modelled
by association lists with JS `Map` semantics (`mapGet`, `mapSet`,
`mapDelete`).  The transport is modelled by the list `sent` of frames
written by the endpoint, in order.
-/

namespace Rpc

/-- JS primitive values (including `null` and `undefined`), which the
marshaller passes through unchanged (`typeof arg !== 'object' || arg === null`). -/
inductive Prim where
  | null
  | undef
  | str (s : String)
  | num (n : Int)
  | bool (b : Bool)
deriving DecidableEq, Repr

/-- A stubbable application object: it exposes a `$rpcMethods` list and is
identified by `key` (JS object identity).  Objects without `$rpcMethods`
are plain data and are modelled by `Value.record`. -/
structure Stubbable where
  key : Nat
  rpcMethods : List String
deriving DecidableEq, Repr

/-- A JS value as seen by `_marshalArgument` / `_unmarshalArgument`:
primitives, arrays, plain data objects (no `$rpcId`, no `$rpcMethods`),
objects carrying a `$rpcId` field (proxies and wire `{$rpcId}` markers),
and stubbable objects (carrying `$rpcMethods` but no `$rpcId`). -/
inductive Value where
  | prim (p : Prim)
  | arr (elems : List Value)
  | record (fields : List (String × Value))
  | oidObj (oid : String)
  | stubObj (o : Stubbable)

/-- JS `Map.prototype.get`. -/
def mapGet {α β : Type} [DecidableEq α] : List (α × β) → α → Option β
  | [], _ => none
  | (k', v) :: rest, k => if k' = k then some v else mapGet rest k

/-- JS `Map.prototype.has`. -/
def mapHas {α β : Type} [DecidableEq α] (m : List (α × β)) (k : α) : Bool :=
  (mapGet m k).isSome

/-- JS `Map.prototype.set`: replaces in place when the key is present,
appends at the end otherwise. -/
def mapSet {α β : Type} [DecidableEq α] : List (α × β) → α → β → List (α × β)
  | [], k, v => [(k, v)]
  | (k', v') :: rest, k, v =>
    if k' = k then (k, v) :: rest else (k', v') :: mapSet rest k v

/-- JS `Map.prototype.delete`. -/
def mapDelete {α β : Type} [DecidableEq α] : List (α × β) → α → List (α × β)
  | [], _ => []
  | (k', v') :: rest, k => if k' = k then rest else (k', v') :: mapDelete rest k

/-- The error code attached to an error object (`string|number` on the wire). -/
inductive ErrCode where
  | str (s : String)
  | num (n : Int)
deriving DecidableEq, Repr

/-- A JS error value: its class name, `message`, and optional `stack`,
`code` and `objectId` fields. -/
structure JsError where
  name : String
  message : String
  stack : Option String
  code : Option ErrCode
  objectId : Option String
deriving DecidableEq, Repr

/-- `new SocketClosedError()`: message `'Socket closed'`, code `ERR_SOCKET_CLOSED`. -/
def socketClosedError : JsError :=
  ⟨"Error", "Socket closed", none, some (.str "ERR_SOCKET_CLOSED"), none⟩

/-- `new InvalidObjectError(objId, msg)`: code `ENXIO`, offending object id kept. -/
def invalidObjectError (objId : String) (msg : String) : JsError :=
  ⟨"Error", msg, none, some (.str "ENXIO"), some objId⟩

/-- `new TypeError(msg)`. -/
def typeError (msg : String) : JsError :=
  ⟨"TypeError", msg, none, none, none⟩

/-- `new SyntaxError(msg)`. -/
def syntaxError (msg : String) : JsError :=
  ⟨"SyntaxError", msg, none, none, none⟩

/-- JS `String(err)` for an error object. -/
def jsErrorToString (e : JsError) : String :=
  if e.message = "" then e.name else e.name ++ ": " ++ e.message

/-- A `new-object` wire frame body (`NewObjectMessage` in the source). -/
structure NewObjectMsg where
  obj : String
  methods : List String

/-- The `id` field of an incoming frame, which may be a number, `null`, or
absent (`undefined`); the source distinguishes all three. -/
inductive JsId where
  | undef
  | null
  | val (n : Nat)
deriving DecidableEq, Repr

/-- A `reply` wire frame (`ReplyMessage` in the source).  A `reply` field
that was absent behaves exactly like `reply: undefined` on the receiving
side, so it is modelled as `Value.prim .undef`. -/
structure ReplyMessage where
  id : JsId
  error : Option String
  message : Option String
  stack : Option String
  code : Option ErrCode
  reply : Value

/-- A `call` wire frame (`CallMessage` in the source).  `params` is an
arbitrary value because the handler checks `Array.isArray` itself. -/
structure CallMessage where
  id : JsId
  obj : String
  method : String
  params : Value

/-- Frames written by an endpoint to its transport. -/
inductive Message where
  | newObject (m : NewObjectMsg)
  | call (id : Nat) (obj : String) (method : String) (params : List Value)
  | reply (m : ReplyMessage)
  | free (id : String)

/-- `RpcStub`: the oid, the stubbed object, and the `$rpcMethods` snapshot
taken at construction. -/
structure RpcStub where
  rpcId : String
  object : Stubbable
  methods : List String
deriving DecidableEq, Repr

/-- `RpcProxy`: the oid it stands for and the method list it was built from. -/
structure RpcProxy where
  rpcId : String
  methods : List String
deriving DecidableEq, Repr

/-- The mutable state of one `RpcSocket` endpoint.  `sent` is the ordered
list of frames the endpoint has written to its transport. -/
structure RpcSocket where
  socketId : String
  knownStubs : List (Stubbable × RpcStub)
  knownStubIds : List (String × Stubbable)
  knownProxies : List (String × RpcProxy)
  pendingCalls : List Nat
  inCall : Bool
  newObjects : List NewObjectMsg
  callId : Nat
  ended : Bool
  stubCnt : Nat
  sent : List Message

/-- The state of a freshly constructed `RpcSocket`. -/
def initSocket (sid : String) : RpcSocket :=
  ⟨sid, [], [], [], [], false, [], 0, false, 0, []⟩

/-- Oid construction: `this._socketId + cnt` (JS number-to-string is the
decimal representation). -/
def mkOid (sid : String) (cnt : Nat) : String :=
  sid ++ Nat.repr cnt

/-- `RpcSocket._sendMetadata`: buffer the `new-object` announcement while
`_inCall` is set, write it to the transport otherwise. -/
def sendMetadata (s : RpcSocket) (stub : RpcStub) : RpcSocket :=
  if s.inCall then
    { s with newObjects := s.newObjects ++ [⟨stub.rpcId, stub.methods⟩] }
  else
    { s with sent := s.sent ++ [.newObject ⟨stub.rpcId, stub.methods⟩] }

/-- `RpcSocket.addStub`.  A `Stubbable` always carries its `$rpcMethods`
array (a present array is always truthy in JS), so the
`TypeError('Invalid stub object')` branch for objects without a method
list cannot fire on values of this model's `Stubbable` type. -/
def addStub (s : RpcSocket) (obj : Stubbable) : String × RpcSocket :=
  match mapGet s.knownStubs obj with
  | some stub =>
    if mapHas s.knownStubIds stub.rpcId then
      (stub.rpcId, s)
    else
      (stub.rpcId,
        sendMetadata { s with knownStubIds := mapSet s.knownStubIds stub.rpcId obj } stub)
  | none =>
    let cnt := s.stubCnt
    let rpcId := mkOid s.socketId cnt
    let stub : RpcStub := ⟨rpcId, obj, obj.rpcMethods⟩
    (rpcId,
      sendMetadata
        { s with
          stubCnt := cnt + 1,
          knownStubs := mapSet s.knownStubs obj stub,
          knownStubIds := mapSet s.knownStubIds rpcId obj } stub)

/-- The `$free` closure installed by `make$free`: it deletes the oid from
`_knownStubIds` (and only from there; it holds no reference to the socket). -/
def freeStubId (s : RpcSocket) (oid : String) : RpcSocket :=
  { s with knownStubIds := mapDelete s.knownStubIds oid }

mutual

/-- `RpcSocket._marshalArgument`.  Returns the rewritten value (or the
thrown error) together with the endpoint state at the moment the function
returns or throws. -/
def marshalArg (s : RpcSocket) : Value → Except JsError Value × RpcSocket
  | .prim p => (.ok (.prim p), s)
  | .arr xs =>
    match marshalList s xs with
    | (.ok ys, s1) => (.ok (.arr ys), s1)
    | (.error e, s1) => (.error e, s1)
  | .oidObj rpcId =>
    if mapHas s.knownProxies rpcId then
      (.ok (.oidObj rpcId), s)
    else
      (.error (invalidObjectError rpcId
        ("Invalid object " ++ rpcId ++ ", likely a proxy from a different socket")), s)
  | .stubObj o =>
    match addStub s o with
    | (oid, s1) => (.ok (.oidObj oid), s1)
  | .record fields => (.ok (.record fields), s)

/-- `arg.map(this._marshalArgument.bind(this))`: left-to-right, threading
the endpoint state, stopping at the first thrown error. -/
def marshalList (s : RpcSocket) : List Value → Except JsError (List Value) × RpcSocket
  | [] => (.ok [], s)
  | x :: xs =>
    match marshalArg s x with
    | (.error e, s1) => (.error e, s1)
    | (.ok y, s1) =>
      match marshalList s1 xs with
      | (.error e, s2) => (.error e, s2)
      | (.ok ys, s2) => (.ok (y :: ys), s2)

end

mutual

/-- `RpcSocket._unmarshalArgument`: an `{$rpcId}` marker is resolved first
against the stub map, then against the proxy map; an unknown oid throws a
`TypeError`. -/
def unmarshalArg (s : RpcSocket) : Value → Except JsError Value
  | .prim p => .ok (.prim p)
  | .arr xs =>
    match unmarshalList s xs with
    | .ok ys => .ok (.arr ys)
    | .error e => .error e
  | .oidObj rpcId =>
    match mapGet s.knownStubIds rpcId with
    | some stub => .ok (.stubObj stub)
    | none =>
      match mapGet s.knownProxies rpcId with
      | some proxy => .ok (.oidObj proxy.rpcId)
      | none => .error (typeError ("Invalid object " ++ rpcId))
  | .stubObj o => .ok (.stubObj o)
  | .record fields => .ok (.record fields)

/-- Element-wise unmarshalling of an array. -/
def unmarshalList (s : RpcSocket) : List Value → Except JsError (List Value)
  | [] => .ok []
  | x :: xs =>
    match unmarshalArg s x with
    | .error e => .error e
    | .ok y =>
      match unmarshalList s xs with
      | .error e => .error e
      | .ok ys => .ok (y :: ys)

end

/-- `RpcSocket._failAllCalls`: reject every pending call with a fresh
`SocketClosedError` and replace the pending-call table by an empty map.
The second component lists the emitted rejections in table order. -/
def failAllCalls (s : RpcSocket) : RpcSocket × List (Nat × JsError) :=
  ({ s with pendingCalls := [] },
    s.pendingCalls.map (fun id => (id, socketClosedError)))

/-- Events re-emitted by the endpoint to its own listeners. -/
inductive Emitted where
  | errorEv (e : JsError)
  | endEv
  | closeEv (hadError : Bool)

/-- The `'error'` listener installed by the constructor: fail all pending
calls, then re-emit the transport error. -/
def onSocketError (s : RpcSocket) (err : JsError) :
    RpcSocket × List (Nat × JsError) × List Emitted :=
  ((failAllCalls s).1, (failAllCalls s).2, [.errorEv err])

/-- The `'end'` listener installed by the constructor: re-emit only. -/
def onSocketEnd (s : RpcSocket) : RpcSocket × List (Nat × JsError) × List Emitted :=
  (s, [], [.endEv])

/-- The `'close'` listener installed by the constructor: set the closed
flag and re-emit. -/
def onSocketClose (s : RpcSocket) (hadError : Bool) :
    RpcSocket × List (Nat × JsError) × List Emitted :=
  ({ s with ended := true }, [], [.closeEv hadError])

/-- The observable outcome of one invocation of `RpcSocket.call`: a
synchronously thrown error, an already-rejected promise, or a promise
parked in the pending-call table under the given call id. -/
inductive CallOutcome where
  | thrown (e : JsError)
  | rejectedPromise (e : JsError)
  | pendingPromise (id : Nat)

/-- `RpcSocket.call`. -/
def callRpc (s : RpcSocket) (obj : String) (method : String) (args : List Value) :
    CallOutcome × RpcSocket :=
  if s.inCall then
    (.thrown (typeError "Re-entrant calls are not supported"), s)
  else if s.ended then
    (.rejectedPromise socketClosedError, s)
  else
    match marshalList { s with inCall := true } args with
    | (.error e, s2) => (.thrown e, s2)
    | (.ok marshalled, s2) =>
      let s3 := { s2 with
        sent := s2.sent ++ s2.newObjects.map Message.newObject,
        newObjects := [],
        inCall := false }
      let id := s3.callId
      (.pendingPromise id,
        { s3 with
          callId := id + 1,
          pendingCalls := s3.pendingCalls ++ [id],
          sent := s3.sent ++ [.call id obj method marshalled] })

/-- The behaviour of the stubbed application objects: property reads,
property writes, and method invocations (`await`ed results — a rejected
promise or a synchronous throw both surface as `.error`). -/
structure TargetEnv where
  getF : Stubbable → String → Except JsError Value
  setF : Stubbable → String → Value → Except JsError Unit
  callF : Stubbable → String → List Value → Except JsError Value

/-- Trace of what an inbound call did to the application object: a getter
read, a setter write, or a method invocation with its argument list. -/
inductive CallAction where
  | got (o : Stubbable) (name : String)
  | setP (o : Stubbable) (name : String) (v : Value)
  | invoked (o : Stubbable) (method : String) (args : List Value)

/-- Dispatch of an inbound call after unmarshalling: `get NAME` requires
zero arguments and is validated against `get NAME`; `set NAME` requires
one argument and is validated against `get NAME` (deliberately, per the
comment in `RpcStub.set`); other methods are validated against the
snapshot and invoked with the unmarshalled arguments verbatim.  When the
stub is missing from `_knownStubs` the JS code dereferences `undefined`,
which surfaces as a `TypeError` inside the `try` block. -/
def dispatchMethod (env : TargetEnv) (stubOpt : Option RpcStub) (method : String)
    (unm : List Value) : Except JsError (Value × CallAction) :=
  if method.take 4 = "get " then
    if unm.length ≠ 0 then .error (typeError "Wrong number of arguments, expected 0")
    else
      match stubOpt with
      | none => .error (typeError "Cannot read properties of undefined")
      | some stub =>
        let name := method.drop 4
        if stub.methods.contains ("get " ++ name) then
          match env.getF stub.object name with
          | .ok v => .ok (v, .got stub.object name)
          | .error e => .error e
        else .error (typeError ("Invalid method " ++ ("get " ++ name)))
  else if method.take 4 = "set " then
    if unm.length ≠ 1 then .error (typeError "Wrong number of arguments, expected 1")
    else
      match stubOpt with
      | none => .error (typeError "Cannot read properties of undefined")
      | some stub =>
        let name := method.drop 4
        if stub.methods.contains ("get " ++ name) then
          match unm with
          | [v] =>
            match env.setF stub.object name v with
            | .ok _ => .ok (.prim .undef, .setP stub.object name v)
            | .error e => .error e
          | _ => .error (typeError "Wrong number of arguments, expected 1")
        else .error (typeError ("Invalid method " ++ ("get " ++ name)))
  else
    match stubOpt with
    | none => .error (typeError "Cannot read properties of undefined")
    | some stub =>
      if stub.methods.contains method then
        match env.callF stub.object method unm with
        | .ok v => .ok (v, .invoked stub.object method unm)
        | .error e => .error e
      else .error (typeError ("Invalid method " ++ method))

/-- The `try` block of `RpcSocket._handleCall`: returns the state at exit,
the action performed on the target (if any), and the error thrown (if any). -/
def handleCallTry (env : TargetEnv) (s : RpcSocket) (msg : CallMessage) :
    RpcSocket × Option CallAction × Option JsError :=
  if !(mapHas s.knownStubIds msg.obj) then
    (s, none, some (invalidObjectError msg.obj ("Invalid object 0x" ++ msg.obj)))
  else
    match msg.params with
    | .arr ps =>
      match unmarshalList s ps with
      | .error e => (s, none, some e)
      | .ok unm =>
        match dispatchMethod env ((mapGet s.knownStubIds msg.obj).bind (mapGet s.knownStubs))
            msg.method unm with
        | .error e => (s, none, some e)
        | .ok (rv, act) =>
          match msg.id with
          | .val idn =>
            match marshalArg s rv with
            | (.error e, s1) => (s1, some act, some e)
            | (.ok mv, s1) =>
              ({ s1 with sent := s1.sent ++ [.reply ⟨.val idn, none, none, none, none, mv⟩] },
                some act, none)
          | _ => (s, some act, none)
    | _ => (s, none, some (typeError "Malformed method call"))

/-- The `catch` block of `RpcSocket._handleCall`: classify the thrown error
into a `reply` frame (`SyntaxError` / `TypeError` / generic with truthy
message / `String(error)` fallback). -/
def classifyError (theId : Nat) (e : JsError) : ReplyMessage :=
  if e.name = "SyntaxError" then
    ⟨.val theId, some "SyntaxError", some e.message, e.stack, none, .prim .undef⟩
  else if e.name = "TypeError" then
    ⟨.val theId, some "TypeError", some e.message, e.stack, none, .prim .undef⟩
  else if e.message ≠ "" then
    ⟨.val theId, some e.message, none, e.stack, e.code, .prim .undef⟩
  else
    ⟨.val theId, some (jsErrorToString e), none, none, none, .prim .undef⟩

/-- `RpcSocket._handleCall`: a frame with `id === undefined` is dropped;
a thrown error is answered with a classified error reply unless the
endpoint has ended or `id === null`. -/
def handleCall (env : TargetEnv) (s : RpcSocket) (msg : CallMessage) :
    RpcSocket × Option CallAction :=
  match msg.id with
  | .undef => (s, none)
  | _ =>
    match handleCallTry env s msg with
    | (s1, act, none) => (s1, act)
    | (s1, act, some e) =>
      if s1.ended then (s1, act)
      else
        match msg.id with
        | .val idn => ({ s1 with sent := s1.sent ++ [.reply (classifyError idn e)] }, act)
        | _ => (s1, act)

/-- How the promise of a pending call is settled. -/
inductive Settle where
  | resolved (v : Value)
  | rejected (e : JsError)

/-- JS truthiness of an optional string field (absent and `""` are falsy). -/
def strTruthy : Option String → Bool
  | none => false
  | some st => st != ""

/-- The error object `RpcSocket._handleReply` rebuilds from a `reply` frame
with a truthy `error` field: class from the `error` string, then `code`
copied when present and `stack` copied when truthy. -/
def replyError (msg : ReplyMessage) : JsError :=
  let base : JsError :=
    if msg.error = some "SyntaxError" then syntaxError (msg.message.getD "")
    else if msg.error = some "TypeError" then typeError (msg.message.getD "")
    else ⟨"Error", msg.error.getD "", none, none, none⟩
  let base2 :=
    match msg.code with
    | some c => { base with code := some c }
    | none => base
  match msg.stack with
  | some st => if st = "" then base2 else { base2 with stack := some st }
  | none => base2

/-- `RpcSocket._handleReply`. -/
def handleReply (s : RpcSocket) (msg : ReplyMessage) : RpcSocket × Option (Nat × Settle) :=
  match msg.id with
  | .undef => (s, none)
  | .null => (s, none)
  | .val idn =>
    if !(s.pendingCalls.contains idn) then (s, none)
    else
      let s1 := { s with pendingCalls := s.pendingCalls.erase idn }
      if strTruthy msg.error then (s1, some (idn, .rejected (replyError msg)))
      else
        match unmarshalArg s1 msg.reply with
        | .ok v => (s1, some (idn, .resolved v))
        | .error e => (s1, some (idn, .rejected e))

/-- `RpcSocket._handleFree`. -/
def handleFree (s : RpcSocket) (oid : String) : RpcSocket :=
  if mapHas s.knownStubIds oid then
    { s with knownStubIds := mapDelete s.knownStubIds oid }
  else
    { s with knownProxies := mapDelete s.knownProxies oid }

/-- The `new-object` arm of `RpcSocket._handleMessage`: a known oid is
ignored, an unknown one gets a fresh proxy. -/
def handleNewObject (s : RpcSocket) (oid : String) (methods : List String) : RpcSocket :=
  if mapHas s.knownProxies oid then s
  else { s with knownProxies := mapSet s.knownProxies oid ⟨oid, methods⟩ }

/-- `RpcSocket.freeProxy`: local removal always happens; the `free` frame
is suppressed when the endpoint has ended. -/
def freeProxy (s : RpcSocket) (oid : String) : RpcSocket :=
  let s1 := { s with knownProxies := mapDelete s.knownProxies oid }
  if s1.ended then s1
  else { s1 with sent := s1.sent ++ [.free oid] }

/-- Frames arriving from the peer. -/
inductive InMessage where
  | newObject (obj : String) (methods : List String)
  | call (m : CallMessage)
  | reply (m : ReplyMessage)
  | free (id : String)

/-- `RpcSocket._handleMessage`: route an incoming frame on its `control`
discriminant. -/
def handleMessage (env : TargetEnv) (s : RpcSocket) : InMessage → RpcSocket
  | .newObject oid methods => handleNewObject s oid methods
  | .call m => (handleCall env s m).1
  | .reply m => (handleReply s m).1
  | .free oid => handleFree s oid

/-- Any single operation that can touch an endpoint's state. -/
inductive Op where
  | incoming (env : TargetEnv) (m : InMessage)
  | doAddStub (o : Stubbable)
  | doFreeStub (oid : String)
  | doFreeProxy (oid : String)
  | doCall (obj : String) (method : String) (args : List Value)
  | transportError (e : JsError)
  | transportEnd
  | transportClose (hadError : Bool)

/-- State transition of one operation. -/
def applyOp (s : RpcSocket) : Op → RpcSocket
  | .incoming env m => handleMessage env s m
  | .doAddStub o => (addStub s o).2
  | .doFreeStub oid => freeStubId s oid
  | .doFreeProxy oid => freeProxy s oid
  | .doCall obj method args => (callRpc s obj method args).2
  | .transportError e => (onSocketError s e).1
  | .transportEnd => (onSocketEnd s).1
  | .transportClose b => (onSocketClose s b).1

mutual

/-- The oids a value exposes at marshallable positions (top level and
through arrays; the marshaller and unmarshaller do not recurse into plain
records). -/
def reachOids : Value → List String
  | .prim _ => []
  | .arr xs => reachOidsList xs
  | .oidObj oid => [oid]
  | .stubObj _ => []
  | .record _ => []

/-- `reachOids` over a list of values. -/
def reachOidsList : List Value → List String
  | [] => []
  | x :: xs => reachOids x ++ reachOidsList xs

end

/-- Decidable form of stub-map well-formedness: every id-map entry points
back to a stub whose `$rpcId` is that entry's key. -/
def wfIdsB (s : RpcSocket) : Bool :=
  s.knownStubIds.all fun p =>
    match mapGet s.knownStubs p.2 with
    | some st => st.rpcId == p.1
    | none => false

/-- Decidable form of stub injectivity: two registered objects with the
same `$rpcId` are the same object. -/
def stubsInjB (s : RpcSocket) : Bool :=
  s.knownStubs.all fun q =>
    s.knownStubs.all fun q' =>
      !(q.2.rpcId == q'.2.rpcId) || (q.1 == q'.1)

/-- State facts preserved by one run of `_marshalArgument`: unrelated
fields are untouched, the announcement buffer only grows, nothing is
written to the transport while `_inCall` is set, registered stubs and
id-map keys persist, and (while `_inCall` is set) every id-map key is
either an old key or buffered for announcement. -/
def MPre (s s' : RpcSocket) : Prop :=
  s'.socketId = s.socketId ∧
  s'.inCall = s.inCall ∧
  s'.ended = s.ended ∧
  s'.callId = s.callId ∧
  s'.pendingCalls = s.pendingCalls ∧
  s'.knownProxies = s.knownProxies ∧
  (s.inCall = true → s'.sent = s.sent) ∧
  (∃ ext, s'.newObjects = s.newObjects ++ ext) ∧
  (∀ o st, mapGet s.knownStubs o = some st → mapGet s'.knownStubs o = some st) ∧
  (∀ oid, mapHas s.knownStubIds oid = true → mapHas s'.knownStubIds oid = true) ∧
  (s.inCall = true → ∀ oid, mapHas s'.knownStubIds oid = true →
    mapHas s.knownStubIds oid = true ∨ ∃ ms, NewObjectMsg.mk oid ms ∈ s'.newObjects)

/-- Registry growth between two states: proxies unchanged, registered
stubs persist, id-map keys persist. -/
def Growth (s s' : RpcSocket) : Prop :=
  s'.knownProxies = s.knownProxies ∧
  (∀ o st, mapGet s.knownStubs o = some st → mapGet s'.knownStubs o = some st) ∧
  (∀ oid, mapHas s.knownStubIds oid = true → mapHas s'.knownStubIds oid = true)

/-- Every id-map entry points back to a registered stub carrying that oid. -/
def WfIdsP (s : RpcSocket) : Prop :=
  ∀ oid o, mapGet s.knownStubIds oid = some o →
    ∃ st, mapGet s.knownStubs o = some st ∧ st.rpcId = oid

/-- Two registered objects with the same `$rpcId` are the same object. -/
def StubsInjP (s : RpcSocket) : Prop :=
  ∀ o1 o2 st1 st2, mapGet s.knownStubs o1 = some st1 →
    mapGet s.knownStubs o2 = some st2 → st1.rpcId = st2.rpcId → o1 = o2

/-- Every proxy is stored under its own `$rpcId`. -/
def ProxWfP (s : RpcSocket) : Prop :=
  ∀ oid px, mapGet s.knownProxies oid = some px → px.rpcId = oid

/-- Decidable form of `ProxWfP`. -/
def proxWfB (s : RpcSocket) : Bool :=
  s.knownProxies.all fun p => p.2.rpcId == p.1

/-- Numeric value of a decimal digit character. -/
def decDigit (c : Char) : Nat := c.toNat - 48

/-- Numeric value of a big-endian list of decimal digit characters. -/
def decListVal (l : List Char) : Nat :=
  l.foldl (fun acc c => acc * 10 + decDigit c) 0

/-- A stubbable object used in concrete scenarios. -/
def oA : Stubbable := ⟨1, ["m", "get x"]⟩

/-- The stub record of `oA` at oid `"A:0"`. -/
def stubA : RpcStub := ⟨"A:0", oA, ["m", "get x"]⟩

/-- A concrete endpoint owning stub `"A:0"` and holding proxy `"B:0"`. -/
def baseSocket : RpcSocket :=
  ⟨"A:", [(oA, stubA)], [("A:0", oA)], [("B:0", ⟨"B:0", []⟩)], [], false, [], 0, false, 1, []⟩

/-- `baseSocket` after the stub's `$free` ran (oid removed from the id map). -/
def freedSocket : RpcSocket := freeStubId baseSocket "A:0"

/-- `baseSocket` with one pending call (id 7). -/
def pendingSocket : RpcSocket := { baseSocket with pendingCalls := [7] }

/-- `baseSocket` after closure. -/
def endedSocket : RpcSocket := { baseSocket with ended := true }

/-- `baseSocket` mid-marshalling. -/
def inCallSocket : RpcSocket := { baseSocket with inCall := true }

/-- A concrete application-object behaviour used in scenarios. -/
def envTest : TargetEnv :=
  ⟨fun _ _ => .ok (.prim (.str "v")),
   fun _ _ _ => .ok (),
   fun _ _ args => .ok (.arr args)⟩

/-- An endpoint that has received `new-object` for `"p"` and nothing else. -/
def cexProxySocket : RpcSocket := handleNewObject (initSocket "A:") "p" []

/-- There is a `new-object` frame for `oid` at position `j` of the wire. -/
def newObjectAt (sent : List Message) (j : Nat) (oid : String) : Prop :=
  ∃ ms, sent.get? j = some (.newObject ⟨oid, ms⟩)

/-- The ordering property claimed of the wire: every oid at a marshallable
position of any `call` frame's `params` is introduced by a strictly
earlier `new-object` frame of the same `sent` sequence (same direction,
same endpoint). -/
def allParamOidsIntroduced (sent : List Message) : Prop :=
  ∀ i cid obj method params,
    sent.get? i = some (.call cid obj method params) →
    ∀ oid ∈ reachOidsList params, ∃ j, j < i ∧ newObjectAt sent j oid

/-- A reply frame whose `error` field is present but holds the empty
string (JS-falsy), with a successful-looking `reply` payload. -/
def emptyErrReply : ReplyMessage := ⟨.val 7, some "", none, none, none, .prim (.str "ok")⟩

/-- A stubbable object not yet registered at `baseSocket`. -/
def oFresh : Stubbable := ⟨2, ["n"]⟩

/-- The wire written by `cexProxySocket` after calling with its proxy as
argument. -/
def cexC1sent : List Message := (callRpc cexProxySocket "t" "m" [.oidObj "p"]).2.sent

theorem mapGet_mapSet_self {α β : Type} [DecidableEq α] (m : List (α × β)) (k : α) (v : β) :
    mapGet (mapSet m k v) k = some v := by
  induction m with
  | nil => simp [mapGet, mapSet]
  | cons p rest ih =>
    by_cases h : p.1 = k
    · simp [mapGet, mapSet, h]
    · simp [mapGet, mapSet, h, ih]

theorem mapGet_mapSet_ne {α β : Type} [DecidableEq α] (m : List (α × β)) (k k' : α) (v : β)
    (h : k ≠ k') : mapGet (mapSet m k v) k' = mapGet m k' := by
  induction m with
  | nil => simp [mapGet, mapSet, h]
  | cons p rest ih =>
    by_cases hp : p.1 = k
    · simp [mapGet, mapSet, hp, h]
    · by_cases hp' : p.1 = k'
      · simp [mapGet, mapSet, hp, hp', Ne.symm h]
      · simp [mapGet, mapSet, hp, hp', ih]

theorem mapGet_mem {α β : Type} [DecidableEq α] {m : List (α × β)} {k : α} {v : β}
    (h : mapGet m k = some v) : (k, v) ∈ m := by
  induction m with
  | nil => simp [mapGet] at h
  | cons p rest ih =>
    by_cases hp : p.1 = k
    · simp [mapGet, hp] at h
      cases p
      simp_all
    · simp [mapGet, hp] at h
      exact List.mem_cons_of_mem _ (ih h)

theorem decListVal_append (l : List Char) (c : Char) :
    decListVal (l ++ [c]) = decListVal l * 10 + decDigit c := by
  simp [decListVal]

theorem toDigitsCore_acc (b : Nat) :
    ∀ (f n : Nat) (ds : List Char),
      Nat.toDigitsCore b f n ds = Nat.toDigitsCore b f n [] ++ ds := by
  intro f
  induction f with
  | zero => intro n ds; rfl
  | succ f ih =>
    intro n ds
    simp only [Nat.toDigitsCore]
    by_cases h : n / b = 0
    · simp [h]
    · simp only [h, if_false]
      rw [ih (n / b) (Nat.digitChar (n % b) :: ds), ih (n / b) [Nat.digitChar (n % b)]]
      simp

theorem decDigit_digitChar : ∀ d, d < 10 → decDigit (Nat.digitChar d) = d := by decide

theorem decListVal_toDigitsCore :
    ∀ f n, n < f → decListVal (Nat.toDigitsCore 10 f n []) = n := by
  intro f
  induction f with
  | zero => intro n h; omega
  | succ f ih =>
    intro n hn
    simp only [Nat.toDigitsCore]
    by_cases h : n / 10 = 0
    · have h10 : n % 10 < 10 := Nat.mod_lt _ (by norm_num)
      simp [h, decListVal, decDigit_digitChar _ h10]
      omega
    · simp only [h, if_false]
      rw [toDigitsCore_acc, decListVal_append]
      have hlt : n / 10 < f := by omega
      rw [ih _ hlt, decDigit_digitChar _ (Nat.mod_lt _ (by norm_num))]
      omega

theorem natRepr_inj {m n : Nat} (h : Nat.repr m = Nat.repr n) : m = n := by
  have hdata : Nat.toDigits 10 m = Nat.toDigits 10 n := by
    have h2 := congrArg String.data h
    simpa [Nat.repr, List.asString] using h2
  have hm := decListVal_toDigitsCore (m + 1) m (Nat.lt_succ_self m)
  have hn := decListVal_toDigitsCore (n + 1) n (Nat.lt_succ_self n)
  unfold Nat.toDigits at hdata
  rw [← hm, ← hn, hdata]

theorem data_append_eq (a b : String) : (a ++ b).data = a.data ++ b.data := by
  cases a
  cases b
  rfl

theorem mkOid_inj {sid : String} {c c' : Nat} (h : mkOid sid c = mkOid sid c') : c = c' := by
  apply natRepr_inj
  have hd := congrArg String.data h
  simp only [mkOid, data_append_eq] at hd
  have hlist := List.append_cancel_left hd
  exact String.ext hlist

theorem MPre_refl (s : RpcSocket) : MPre s s := by
  refine ⟨rfl, rfl, rfl, rfl, rfl, rfl, fun _ => rfl, ⟨[], by simp⟩,
    fun o st h => h, fun oid h => h, fun _ oid h => Or.inl h⟩

theorem MPre_trans {s1 s2 s3 : RpcSocket} (h12 : MPre s1 s2) (h23 : MPre s2 s3) :
    MPre s1 s3 := by
  obtain ⟨a1, b1, c1, d1, e1, f1, g1, ⟨x1, hx1⟩, st1, id1, buf1⟩ := h12
  obtain ⟨a2, b2, c2, d2, e2, f2, g2, ⟨x2, hx2⟩, st2, id2, buf2⟩ := h23
  refine ⟨a2.trans a1, b2.trans b1, c2.trans c1, d2.trans d1, e2.trans e1, f2.trans f1,
    ?_, ⟨x1 ++ x2, by rw [hx2, hx1, List.append_assoc]⟩,
    fun o st h => st2 o st (st1 o st h), fun oid h => id2 oid (id1 oid h), ?_⟩
  · intro hin
    have hin2 : s2.inCall = true := by rw [b1]; exact hin
    rw [g2 hin2, g1 hin]
  · intro hin oid h3
    have hin2 : s2.inCall = true := by rw [b1]; exact hin
    rcases buf2 hin2 oid h3 with h2 | ⟨ms, hms⟩
    · rcases buf1 hin oid h2 with h1 | ⟨ms, hms⟩
      · exact Or.inl h1
      · exact Or.inr ⟨ms, by rw [hx2]; exact List.mem_append_left _ hms⟩
    · exact Or.inr ⟨ms, hms⟩

theorem addStub_spec (s : RpcSocket) (o : Stubbable) :
    MPre s (addStub s o).2 ∧
    mapHas (addStub s o).2.knownStubIds (addStub s o).1 = true ∧
    (∃ st, mapGet (addStub s o).2.knownStubs o = some st ∧ st.rpcId = (addStub s o).1) ∧
    (mapHas s.knownStubIds (addStub s o).1 = true ∨
      (s.inCall = true →
        ∃ ms, NewObjectMsg.mk (addStub s o).1 ms ∈ (addStub s o).2.newObjects)) := by
  cases hstub : mapGet s.knownStubs o with
  | some stub =>
    by_cases hlive : mapHas s.knownStubIds stub.rpcId = true
    · have heq : addStub s o = (stub.rpcId, s) := by
        simp [addStub, hstub, hlive]
      rw [heq]
      exact ⟨MPre_refl s, hlive, ⟨stub, hstub, rfl⟩, Or.inl hlive⟩
    · cases hic : s.inCall with
      | true =>
        have heq : addStub s o = (stub.rpcId,
            { s with knownStubIds := mapSet s.knownStubIds stub.rpcId o,
                     newObjects := s.newObjects ++ [⟨stub.rpcId, stub.methods⟩] }) := by
          simp [addStub, hstub, hlive, sendMetadata, hic]
        rw [heq]
        refine ⟨⟨rfl, rfl, rfl, rfl, rfl, rfl, fun _ => rfl, ⟨_, rfl⟩, fun o' st h => h, ?_, ?_⟩,
          ?_, ⟨stub, hstub, rfl⟩, Or.inr fun _ => ⟨stub.methods, ?_⟩⟩
        · intro oid h
          by_cases hoid : stub.rpcId = oid
          · subst hoid; simp [mapHas, mapGet_mapSet_self]
          · simpa [mapHas, mapGet_mapSet_ne _ _ _ _ hoid] using h
        · intro _ oid h
          by_cases hoid : stub.rpcId = oid
          · subst hoid
            exact Or.inr ⟨stub.methods, List.mem_append_right _ (List.mem_singleton.mpr rfl)⟩
          · rw [mapHas, mapGet_mapSet_ne _ _ _ _ hoid] at h
            exact Or.inl h
        · simp [mapHas, mapGet_mapSet_self]
        · exact List.mem_append_right _ (List.mem_singleton.mpr rfl)
      | false =>
        have heq : addStub s o = (stub.rpcId,
            { s with knownStubIds := mapSet s.knownStubIds stub.rpcId o,
                     sent := s.sent ++ [.newObject ⟨stub.rpcId, stub.methods⟩] }) := by
          simp [addStub, hstub, hlive, sendMetadata, hic]
        rw [heq]
        refine ⟨⟨rfl, rfl, rfl, rfl, rfl, rfl, ?_, ⟨[], by simp⟩, fun o' st h => h, ?_, ?_⟩,
          ?_, ⟨stub, hstub, rfl⟩, Or.inr fun hin => ?_⟩
        · intro hin; rw [hic] at hin; exact absurd hin (by decide)
        · intro oid h
          by_cases hoid : stub.rpcId = oid
          · subst hoid; simp [mapHas, mapGet_mapSet_self]
          · simpa [mapHas, mapGet_mapSet_ne _ _ _ _ hoid] using h
        · intro hin; rw [hic] at hin; exact absurd hin (by decide)
        · simp [mapHas, mapGet_mapSet_self]
        · exact absurd hin (by decide)
  | none =>
    cases hic : s.inCall with
    | true =>
      have heq : addStub s o = (mkOid s.socketId s.stubCnt,
          { s with stubCnt := s.stubCnt + 1,
                   knownStubs := mapSet s.knownStubs o ⟨mkOid s.socketId s.stubCnt, o, o.rpcMethods⟩,
                   knownStubIds := mapSet s.knownStubIds (mkOid s.socketId s.stubCnt) o,
                   newObjects := s.newObjects ++ [⟨mkOid s.socketId s.stubCnt, o.rpcMethods⟩] }) := by
        simp [addStub, hstub, sendMetadata, hic]
      rw [heq]
      refine ⟨⟨rfl, rfl, rfl, rfl, rfl, rfl, fun _ => rfl, ⟨_, rfl⟩, ?_, ?_, ?_⟩,
        ?_, ⟨_, mapGet_mapSet_self _ _ _, rfl⟩, Or.inr fun _ => ⟨o.rpcMethods, ?_⟩⟩
      · intro o' st h
        by_cases ho : o = o'
        · subst ho; rw [hstub] at h; cases h
        · rw [mapGet_mapSet_ne _ _ _ _ ho]; exact h
      · intro oid h
        by_cases hoid : mkOid s.socketId s.stubCnt = oid
        · subst hoid; simp [mapHas, mapGet_mapSet_self]
        · simpa [mapHas, mapGet_mapSet_ne _ _ _ _ hoid] using h
      · intro _ oid h
        by_cases hoid : mkOid s.socketId s.stubCnt = oid
        · subst hoid
          exact Or.inr ⟨o.rpcMethods, List.mem_append_right _ (List.mem_singleton.mpr rfl)⟩
        · rw [mapHas, mapGet_mapSet_ne _ _ _ _ hoid] at h
          exact Or.inl h
      · simp [mapHas, mapGet_mapSet_self]
      · exact List.mem_append_right _ (List.mem_singleton.mpr rfl)
    | false =>
      have heq : addStub s o = (mkOid s.socketId s.stubCnt,
          { s with stubCnt := s.stubCnt + 1,
                   knownStubs := mapSet s.knownStubs o ⟨mkOid s.socketId s.stubCnt, o, o.rpcMethods⟩,
                   knownStubIds := mapSet s.knownStubIds (mkOid s.socketId s.stubCnt) o,
                   sent := s.sent ++ [.newObject ⟨mkOid s.socketId s.stubCnt, o.rpcMethods⟩] }) := by
        simp [addStub, hstub, sendMetadata, hic]
      rw [heq]
      refine ⟨⟨rfl, rfl, rfl, rfl, rfl, rfl, ?_, ⟨[], by simp⟩, ?_, ?_, ?_⟩,
        ?_, ⟨_, mapGet_mapSet_self _ _ _, rfl⟩, Or.inr fun hin => ?_⟩
      · intro hin; rw [hic] at hin; exact absurd hin (by decide)
      · intro o' st h
        by_cases ho : o = o'
        · subst ho; rw [hstub] at h; cases h
        · rw [mapGet_mapSet_ne _ _ _ _ ho]; exact h
      · intro oid h
        by_cases hoid : mkOid s.socketId s.stubCnt = oid
        · subst hoid; simp [mapHas, mapGet_mapSet_self]
        · simpa [mapHas, mapGet_mapSet_ne _ _ _ _ hoid] using h
      · intro hin; rw [hic] at hin; exact absurd hin (by decide)
      · simp [mapHas, mapGet_mapSet_self]
      · exact absurd hin (by decide)

theorem marshal_mpre_main :
    ∀ n : Nat, (∀ s v, sizeOf v ≤ n → MPre s (marshalArg s v).2) ∧
      (∀ s l, sizeOf l ≤ n → MPre s (marshalList s l).2) := by
  intro n
  induction n using Nat.strong_induction_on with
  | _ n ih =>
    constructor
    · intro s v hv
      cases v with
      | prim p => exact MPre_refl s
      | record fields => exact MPre_refl s
      | oidObj oid =>
        simp only [marshalArg]
        by_cases h : mapHas s.knownProxies oid = true
        · rw [if_pos h]; exact MPre_refl s
        · rw [if_neg h]; exact MPre_refl s
      | stubObj o =>
        have h := (addStub_spec s o).1
        simp only [marshalArg]
        exact h
      | arr xs =>
        have hlt : sizeOf xs < n := by
          have h2 : sizeOf xs < sizeOf (Value.arr xs) := by simp <;> omega
          omega
        have h := (ih (sizeOf xs) hlt).2 s xs le_rfl
        simp only [marshalArg]
        split
        · rename_i ys s1 heq
          rw [heq] at h
          exact h
        · rename_i e s1 heq
          rw [heq] at h
          exact h
    · intro s l hl
      cases l with
      | nil => exact MPre_refl s
      | cons x xs =>
        have hx : sizeOf x < n := by
          have h2 : sizeOf x < sizeOf (x :: xs) := by simp <;> omega
          omega
        have hxs : sizeOf xs < n := by
          have h2 : sizeOf xs < sizeOf (x :: xs) := by simp <;> omega
          omega
        have h1 := (ih (sizeOf x) hx).1 s x le_rfl
        simp only [marshalList]
        split
        · rename_i e s1 heq
          rw [heq] at h1
          exact h1
        · rename_i y s1 heq
          rw [heq] at h1
          have h2 := (ih (sizeOf xs) hxs).2 s1 xs le_rfl
          split
          · rename_i e s2 heq2
            rw [heq2] at h2
            exact MPre_trans h1 h2
          · rename_i ys s2 heq2
            rw [heq2] at h2
            exact MPre_trans h1 h2

theorem marshalArg_mpre (s : RpcSocket) (v : Value) : MPre s (marshalArg s v).2 :=
  (marshal_mpre_main (sizeOf v)).1 s v le_rfl

theorem marshalList_mpre (s : RpcSocket) (l : List Value) : MPre s (marshalList s l).2 :=
  (marshal_mpre_main (sizeOf l)).2 s l le_rfl

theorem marshal_cover_main :
    ∀ n : Nat,
      (∀ s v w s', marshalArg s v = (.ok w, s') → s.inCall = true → sizeOf v ≤ n →
        ∀ oid, oid ∈ reachOids w →
          mapHas s.knownProxies oid = true ∨ mapHas s.knownStubIds oid = true ∨
            ∃ ms, NewObjectMsg.mk oid ms ∈ s'.newObjects) ∧
      (∀ s l ws s', marshalList s l = (.ok ws, s') → s.inCall = true → sizeOf l ≤ n →
        ∀ oid, oid ∈ reachOidsList ws →
          mapHas s.knownProxies oid = true ∨ mapHas s.knownStubIds oid = true ∨
            ∃ ms, NewObjectMsg.mk oid ms ∈ s'.newObjects) := by
  intro n
  induction n using Nat.strong_induction_on with
  | _ n ih =>
    constructor
    · intro s v w s' hm hin hv oid hmem
      cases v with
      | prim p =>
        simp only [marshalArg, Prod.mk.injEq, Except.ok.injEq] at hm
        obtain ⟨hw, hs⟩ := hm
        subst hw
        simp [reachOids] at hmem
      | record fields =>
        simp only [marshalArg, Prod.mk.injEq, Except.ok.injEq] at hm
        obtain ⟨hw, hs⟩ := hm
        subst hw
        simp [reachOids] at hmem
      | oidObj oid0 =>
        simp only [marshalArg] at hm
        by_cases h : mapHas s.knownProxies oid0 = true
        · rw [if_pos h] at hm
          simp only [Prod.mk.injEq, Except.ok.injEq] at hm
          obtain ⟨hw, hs⟩ := hm
          subst hw
          simp [reachOids] at hmem
          subst hmem
          exact Or.inl h
        · rw [if_neg h] at hm
          simp at hm
      | stubObj o =>
        have hspec := addStub_spec s o
        simp only [marshalArg] at hm
        rcases ha : addStub s o with ⟨oid0, s1⟩
        rw [ha] at hm hspec
        simp only [Prod.mk.injEq, Except.ok.injEq] at hm
        obtain ⟨hw, hs⟩ := hm
        subst hw
        subst hs
        simp [reachOids] at hmem
        subst hmem
        rcases hspec.2.2.2 with hleft | hbuf
        · exact Or.inr (Or.inl hleft)
        · exact Or.inr (Or.inr (hbuf hin))
      | arr xs =>
        have hlt : sizeOf xs < n := by
          have h2 : sizeOf xs < sizeOf (Value.arr xs) := by simp <;> omega
          omega
        simp only [marshalArg] at hm
        split at hm
        · rename_i ys s1 heq
          simp only [Prod.mk.injEq, Except.ok.injEq] at hm
          obtain ⟨hw, hs⟩ := hm
          subst hw
          simp only [reachOids] at hmem
          exact (ih (sizeOf xs) hlt).2 s xs ys s' (by rw [heq, hs]) hin le_rfl oid hmem
        · rename_i e s1 heq
          simp at hm
    · intro s l ws s' hm hin hl oid hmem
      cases l with
      | nil =>
        simp only [marshalList, Prod.mk.injEq, Except.ok.injEq] at hm
        obtain ⟨hw, hs⟩ := hm
        subst hw
        simp [reachOidsList] at hmem
      | cons x xs =>
        have hszx : sizeOf x < n := by
          have h2 : sizeOf x < sizeOf (x :: xs) := by simp <;> omega
          omega
        have hszxs : sizeOf xs < n := by
          have h2 : sizeOf xs < sizeOf (x :: xs) := by simp <;> omega
          omega
        simp only [marshalList] at hm
        split at hm
        · rename_i e s1 heq
          simp at hm
        · rename_i y s1 heq
          have hpre1 := marshalArg_mpre s x
          rw [heq] at hpre1
          split at hm
          · rename_i e s2 heq2
            simp at hm
          · rename_i ys s2 heq2
            have hpre2 := marshalList_mpre s1 xs
            rw [heq2] at hpre2
            simp only [Prod.mk.injEq, Except.ok.injEq] at hm
            obtain ⟨hw, hs⟩ := hm
            subst hw
            subst hs
            simp only [reachOidsList, List.mem_append] at hmem
            obtain ⟨_, _, _, _, _, _, _, ⟨ext2, hext2⟩, _, _, _⟩ := hpre2
            rcases hmem with hy | hys
            · rcases (ih (sizeOf x) hszx).1 s x y s1 heq hin le_rfl oid hy with h | h | ⟨ms, hms⟩
              · exact Or.inl h
              · exact Or.inr (Or.inl h)
              · exact Or.inr (Or.inr ⟨ms, by rw [hext2]; exact List.mem_append_left _ hms⟩)
            · obtain ⟨_, hinc1, _, _, _, hpx1, _, ⟨ext1, hext1⟩, _, _, hbuf1⟩ := hpre1
              have hin1 : s1.inCall = true := by rw [hinc1, hin]
              rcases (ih (sizeOf xs) hszxs).2 s1 xs ys s2 heq2 hin1 le_rfl oid hys with h | h | ⟨ms, hms⟩
              · rw [hpx1] at h
                exact Or.inl h
              · rcases hbuf1 hin oid h with h2 | ⟨ms, hms⟩
                · exact Or.inr (Or.inl h2)
                · exact Or.inr (Or.inr ⟨ms, by rw [hext2]; exact List.mem_append_left _ hms⟩)
              · exact Or.inr (Or.inr ⟨ms, hms⟩)

theorem marshalArg_cover (s : RpcSocket) (v w : Value) (s' : RpcSocket)
    (hm : marshalArg s v = (.ok w, s')) (hin : s.inCall = true) :
    ∀ oid, oid ∈ reachOids w →
      mapHas s.knownProxies oid = true ∨ mapHas s.knownStubIds oid = true ∨
        ∃ ms, NewObjectMsg.mk oid ms ∈ s'.newObjects :=
  (marshal_cover_main (sizeOf v)).1 s v w s' hm hin le_rfl

theorem marshalList_cover (s : RpcSocket) (l ws : List Value) (s' : RpcSocket)
    (hm : marshalList s l = (.ok ws, s')) (hin : s.inCall = true) :
    ∀ oid, oid ∈ reachOidsList ws →
      mapHas s.knownProxies oid = true ∨ mapHas s.knownStubIds oid = true ∨
        ∃ ms, NewObjectMsg.mk oid ms ∈ s'.newObjects :=
  (marshal_cover_main (sizeOf l)).2 s l ws s' hm hin le_rfl

theorem mpre_growth {s s' : RpcSocket} (h : MPre s s') : Growth s s' := by
  obtain ⟨_, _, _, _, _, hpx, _, _, hstubs, hids, _⟩ := h
  exact ⟨hpx, hstubs, hids⟩

theorem Growth_refl (s : RpcSocket) : Growth s s :=
  ⟨rfl, fun _ _ h => h, fun _ h => h⟩

theorem Growth_trans {s1 s2 s3 : RpcSocket} (h12 : Growth s1 s2) (h23 : Growth s2 s3) :
    Growth s1 s3 :=
  ⟨h23.1.trans h12.1, fun o st h => h23.2.1 o st (h12.2.1 o st h),
    fun oid h => h23.2.2 oid (h12.2.2 oid h)⟩

theorem wfIdsB_spec {s : RpcSocket} (h : wfIdsB s = true) : WfIdsP s := by
  intro oid o hget
  have hmem := mapGet_mem hget
  rw [wfIdsB, List.all_eq_true] at h
  have h2 : (match mapGet s.knownStubs o with
      | some st => st.rpcId == oid
      | none => false) = true := h _ hmem
  cases hst : mapGet s.knownStubs o with
  | none => rw [hst] at h2; simp at h2
  | some st =>
    rw [hst] at h2
    exact ⟨st, rfl, by simpa using h2⟩

theorem stubsInjB_spec {s : RpcSocket} (h : stubsInjB s = true) : StubsInjP s := by
  intro o1 o2 st1 st2 h1 h2 heq
  have hm1 := mapGet_mem h1
  have hm2 := mapGet_mem h2
  rw [stubsInjB, List.all_eq_true] at h
  have h3 := h _ hm1
  rw [List.all_eq_true] at h3
  have h4 : (!(st1.rpcId == st2.rpcId) || (o1 == o2)) = true := h3 _ hm2
  rw [heq] at h4
  simpa using h4

theorem proxWfB_spec {s : RpcSocket} (h : proxWfB s = true) : ProxWfP s := by
  intro oid px hget
  have hmem := mapGet_mem hget
  rw [proxWfB, List.all_eq_true] at h
  have h2 : (px.rpcId == oid) = true := h _ hmem
  simpa using h2

theorem marshal_roundTrip_main :
    ∀ n : Nat,
      (∀ s v w sm, marshalArg s v = (.ok w, sm) → sizeOf v ≤ n →
        ∀ s', Growth sm s' →
          (∀ oid ∈ reachOids v, mapGet s'.knownStubIds oid = none) →
          WfIdsP s' → StubsInjP s' → ProxWfP s' →
          unmarshalArg s' w = .ok v) ∧
      (∀ s l ws sm, marshalList s l = (.ok ws, sm) → sizeOf l ≤ n →
        ∀ s', Growth sm s' →
          (∀ oid ∈ reachOidsList l, mapGet s'.knownStubIds oid = none) →
          WfIdsP s' → StubsInjP s' → ProxWfP s' →
          unmarshalList s' ws = .ok l) := by
  intro n
  induction n using Nat.strong_induction_on with
  | _ n ih =>
    constructor
    · intro s v w sm hm hv s' hg h1 hwf hinj hpwf
      cases v with
      | prim p =>
        simp only [marshalArg, Prod.mk.injEq, Except.ok.injEq] at hm
        obtain ⟨hw, hs⟩ := hm
        subst hw
        rfl
      | record fields =>
        simp only [marshalArg, Prod.mk.injEq, Except.ok.injEq] at hm
        obtain ⟨hw, hs⟩ := hm
        subst hw
        rfl
      | oidObj oid0 =>
        simp only [marshalArg] at hm
        by_cases h : mapHas s.knownProxies oid0 = true
        · rw [if_pos h] at hm
          simp only [Prod.mk.injEq, Except.ok.injEq] at hm
          obtain ⟨hw, hs⟩ := hm
          subst hw
          subst hs
          have hnone : mapGet s'.knownStubIds oid0 = none :=
            h1 oid0 (by simp [reachOids])
          have hpxeq : s'.knownProxies = s.knownProxies := hg.1
          rw [mapHas, Option.isSome_iff_exists] at h
          obtain ⟨px, hpx⟩ := h
          have hpx2 : mapGet s'.knownProxies oid0 = some px := by rw [hpxeq]; exact hpx
          have hrid : px.rpcId = oid0 := hpwf oid0 px hpx2
          simp only [unmarshalArg, hnone, hpx2, hrid]
        · rw [if_neg h] at hm
          simp at hm
      | stubObj o =>
        have hspec := addStub_spec s o
        simp only [marshalArg] at hm
        rcases ha : addStub s o with ⟨oid0, s1⟩
        rw [ha] at hm hspec
        simp only [Prod.mk.injEq, Except.ok.injEq] at hm
        obtain ⟨hw, hs⟩ := hm
        subst hw
        subst hs
        obtain ⟨_, hhas1, ⟨st, hst, hstid⟩, _⟩ := hspec
        have hhas2 : mapHas s'.knownStubIds oid0 = true := hg.2.2 oid0 hhas1
        rw [mapHas, Option.isSome_iff_exists] at hhas2
        obtain ⟨o2, ho2⟩ := hhas2
        obtain ⟨st2, hst2, hstid2⟩ := hwf oid0 o2 ho2
        have hsto : mapGet s'.knownStubs o = some st := hg.2.1 o st hst
        have heqo : o = o2 := hinj o o2 st st2 hsto hst2 (by rw [hstid, hstid2])
        subst heqo
        simp only [unmarshalArg, ho2]
      | arr xs =>
        have hlt : sizeOf xs < n := by
          have h2 : sizeOf xs < sizeOf (Value.arr xs) := by simp <;> omega
          omega
        simp only [marshalArg] at hm
        split at hm
        · rename_i ys s1 heq
          simp only [Prod.mk.injEq, Except.ok.injEq] at hm
          obtain ⟨hw, hs⟩ := hm
          subst hw
          have hrec := (ih (sizeOf xs) hlt).2 s xs ys sm (by rw [heq, hs]) le_rfl s' hg
            (by intro oid hoid; exact h1 oid (by simpa [reachOids] using hoid)) hwf hinj hpwf
          simp only [unmarshalArg, hrec]
        · rename_i e s1 heq
          simp at hm
    · intro s l ws sm hm hl s' hg h1 hwf hinj hpwf
      cases l with
      | nil =>
        simp only [marshalList, Prod.mk.injEq, Except.ok.injEq] at hm
        obtain ⟨hw, hs⟩ := hm
        subst hw
        rfl
      | cons x xs =>
        have hszx : sizeOf x < n := by
          have h2 : sizeOf x < sizeOf (x :: xs) := by simp <;> omega
          omega
        have hszxs : sizeOf xs < n := by
          have h2 : sizeOf xs < sizeOf (x :: xs) := by simp <;> omega
          omega
        simp only [marshalList] at hm
        split at hm
        · rename_i e s1 heq
          simp at hm
        · rename_i y s1 heq
          split at hm
          · rename_i e s2 heq2
            simp at hm
          · rename_i ys s2 heq2
            have hpre2 := marshalList_mpre s1 xs
            rw [heq2] at hpre2
            simp only [Prod.mk.injEq, Except.ok.injEq] at hm
            obtain ⟨hw, hs⟩ := hm
            subst hw
            subst hs
            have hg1 : Growth s1 s' := Growth_trans (mpre_growth hpre2) hg
            have hrx := (ih (sizeOf x) hszx).1 s x y s1 heq le_rfl s' hg1
              (by intro oid hoid
                  refine h1 oid ?_
                  simp only [reachOidsList, List.mem_append]
                  exact Or.inl hoid)
              hwf hinj hpwf
            have hrxs := (ih (sizeOf xs) hszxs).2 s1 xs ys s2 heq2 le_rfl s' hg
              (by intro oid hoid
                  refine h1 oid ?_
                  simp only [reachOidsList, List.mem_append]
                  exact Or.inr hoid)
              hwf hinj hpwf
            simp only [unmarshalList, hrx, hrxs]

/-- C5: on an endpoint whose closed flag is set (and that is not currently
marshalling), `call(oid, method, args)` returns a promise rejected with a
closed-endpoint error carrying code `ERR_SOCKET_CLOSED`, writes nothing to
the transport, and leaves the whole endpoint state — in particular the
pending-call table and the `callId` counter — unchanged. -/
theorem claim5_closed_call (s : RpcSocket) (obj method : String) (args : List Value)
    (hin : s.inCall = false) (hend : s.ended = true) :
    callRpc s obj method args = (.rejectedPromise socketClosedError, s) ∧
    socketClosedError.code = some (.str "ERR_SOCKET_CLOSED") := by
  constructor
  · simp [callRpc, hin, hend]
  · rfl

/-- Witness for C5 at a concrete closed endpoint. -/
theorem claim5_closed_call_witness :
    callRpc endedSocket "A:0" "m" [] = (.rejectedPromise socketClosedError, endedSocket) :=
  (claim5_closed_call endedSocket "A:0" "m" [] rfl rfl).1

/-- C6: while the `inCall` flag is set, `call(oid, method, args)` throws a
`TypeError` synchronously — it does not return a promise, does not write
to the transport, and does not mutate any endpoint state. -/
theorem claim6_reentrant_call (s : RpcSocket) (obj method : String) (args : List Value)
    (hin : s.inCall = true) :
    callRpc s obj method args =
      (.thrown (typeError "Re-entrant calls are not supported"), s) ∧
    (typeError "Re-entrant calls are not supported").name = "TypeError" := by
  constructor
  · simp [callRpc, hin]
  · rfl

/-- Witness for C6 at a concrete marshalling endpoint. -/
theorem claim6_reentrant_call_witness :
    callRpc inCallSocket "A:0" "m" [] =
      (.thrown (typeError "Re-entrant calls are not supported"), inCallSocket) :=
  (claim6_reentrant_call inCallSocket "A:0" "m" [] rfl).1

/-- C9: if marshalling any argument of an outbound call throws, the error
propagates synchronously to the caller, no `call` or `new-object` frame is
written to the transport for that call, no callId is consumed, and the
pending-call table is unchanged. -/
theorem claim9_marshal_error_atomic (s : RpcSocket) (obj method : String)
    (args : List Value) (e : JsError) (s2 : RpcSocket)
    (hin : s.inCall = false) (hend : s.ended = false)
    (hm : marshalList { s with inCall := true } args = (.error e, s2)) :
    callRpc s obj method args = (.thrown e, s2) ∧
    s2.sent = s.sent ∧ s2.callId = s.callId ∧ s2.pendingCalls = s.pendingCalls := by
  have hpre := marshalList_mpre { s with inCall := true } args
  rw [hm] at hpre
  obtain ⟨_, _, _, hcid, hpend, _, hsent, _⟩ := hpre
  refine ⟨?_, hsent rfl, hcid, hpend⟩
  have hni : ¬(s.inCall = true) := by simp [hin]
  have hne : ¬(s.ended = true) := by simp [hend]
  unfold callRpc
  rw [if_neg hni, if_neg hne, hm]

/-- Witness for C9: the concrete failing argument is an object carrying an
oid absent from the proxy registry, rejected with an `ENXIO`
invalid-object error. -/
theorem claim9_marshal_error_atomic_witness :
    callRpc baseSocket "A:0" "m" [.oidObj "Q"] =
      (.thrown (invalidObjectError "Q"
        "Invalid object Q, likely a proxy from a different socket"),
       { baseSocket with inCall := true }) ∧
    (invalidObjectError "Q"
      "Invalid object Q, likely a proxy from a different socket").code =
        some (.str "ENXIO") :=
  ⟨(claim9_marshal_error_atomic baseSocket "A:0" "m" [.oidObj "Q"]
      (invalidObjectError "Q" "Invalid object Q, likely a proxy from a different socket")
      { baseSocket with inCall := true } rfl rfl rfl).1, rfl⟩

set_option maxHeartbeats 1000000 in
theorem handleCallTry_inCall (env : TargetEnv) (s : RpcSocket) (msg : CallMessage) :
    (handleCallTry env s msg).1.inCall = s.inCall := by
  unfold handleCallTry
  split
  · rfl
  · split
    · split
      · rfl
      · split
        · rfl
        · rename_i rv act heqd
          split
          · rename_i idn
            split
            · rename_i e s1 heq
              have hpre := marshalArg_mpre s rv
              rw [heq] at hpre
              exact hpre.2.1
            · rename_i mv s1 heq
              have hpre := marshalArg_mpre s rv
              rw [heq] at hpre
              exact hpre.2.1
          · rfl
    · rfl

set_option maxHeartbeats 1000000 in
theorem handleCall_inCall (env : TargetEnv) (s : RpcSocket) (msg : CallMessage) :
    (handleCall env s msg).1.inCall = s.inCall := by
  unfold handleCall
  split
  · rfl
  · split
    · rename_i s1 act heq
      have h := handleCallTry_inCall env s msg
      rw [heq] at h
      exact h
    · rename_i s1 act e heq
      have h := handleCallTry_inCall env s msg
      rw [heq] at h
      split
      · exact h
      · split
        · exact h
        · exact h

theorem applyOp_inCall {s : RpcSocket} (op : Op) (h : s.inCall = true) :
    (applyOp s op).inCall = true := by
  cases op with
  | incoming env m =>
    cases m with
    | newObject oid methods =>
      simp only [applyOp, handleMessage, handleNewObject]
      split
      · exact h
      · exact h
    | call m => rw [applyOp, handleMessage, handleCall_inCall]; exact h
    | reply m =>
      simp only [applyOp, handleMessage, handleReply]
      split
      · exact h
      · exact h
      · split
        · exact h
        · split
          · exact h
          · split
            · exact h
            · exact h
    | free oid =>
      simp only [applyOp, handleMessage, handleFree]
      split
      · exact h
      · exact h
  | doAddStub o =>
    have hpre := (addStub_spec s o).1
    rw [applyOp]
    rw [hpre.2.1]
    exact h
  | doFreeStub oid => exact h
  | doFreeProxy oid =>
    simp only [applyOp, freeProxy]
    split
    · exact h
    · exact h
  | doCall obj method args =>
    simp only [applyOp, callRpc, h, if_pos]
  | transportError e => exact h
  | transportEnd => exact h
  | transportClose b => exact h

theorem runOps_inCall (ops : List Op) {s : RpcSocket} (h : s.inCall = true) :
    (ops.foldl applyOp s).inCall = true := by
  induction ops generalizing s with
  | nil => exact h
  | cons op rest ih => exact ih (applyOp_inCall op h)

/-- C10: if marshalling an argument of `call` throws, the `inCall` flag is
left set (nothing on the throwing path resets it), so after any further
sequence of endpoint operations every subsequent invocation of `call` —
with any arguments — throws the re-entrancy `TypeError`: the endpoint can
never issue an outbound call again. -/
theorem claim10_stuck_inCall (s : RpcSocket) (obj method : String) (args : List Value)
    (e : JsError) (s2 : RpcSocket)
    (hin : s.inCall = false) (hend : s.ended = false)
    (hm : marshalList { s with inCall := true } args = (.error e, s2)) :
    callRpc s obj method args = (.thrown e, s2) ∧
    s2.inCall = true ∧
    (∀ (ops : List Op) (obj2 method2 : String) (args2 : List Value),
      callRpc (ops.foldl applyOp s2) obj2 method2 args2 =
        (.thrown (typeError "Re-entrant calls are not supported"), ops.foldl applyOp s2)) := by
  have hpre := marshalList_mpre { s with inCall := true } args
  rw [hm] at hpre
  have hin2 : s2.inCall = true := hpre.2.1
  have hni : ¬(s.inCall = true) := by simp [hin]
  have hne : ¬(s.ended = true) := by simp [hend]
  refine ⟨by unfold callRpc; rw [if_neg hni, if_neg hne, hm], hin2, ?_⟩
  intro ops obj2 method2 args2
  have h3 := runOps_inCall ops hin2
  simp [callRpc, h3]

/-- Witness for C10: after the concrete marshalling failure of the C9
witness, a later call throws the re-entrancy `TypeError`. -/
theorem claim10_stuck_inCall_witness :
    callRpc { baseSocket with inCall := true } "A:0" "m2" [] =
      (.thrown (typeError "Re-entrant calls are not supported"),
        { baseSocket with inCall := true }) :=
  (claim10_stuck_inCall baseSocket "A:0" "m" [.oidObj "Q"]
      (invalidObjectError "Q" "Invalid object Q, likely a proxy from a different socket")
      { baseSocket with inCall := true } rfl rfl rfl).2.2 [] "A:0" "m2" []

/-- C3: `addStub` is idempotent while the stub is live (same oid, no
announcement, no state change); after `$free` removed the oid, `addStub`
returns the same oid, re-installs it in the id map and re-announces it
with a `new-object` message; fresh oids are taken from the monotonically
increasing `stubCnt` counter and distinct counter values yield distinct
oids, so oids are never reused. -/
theorem claim3_addStub (s : RpcSocket) (obj : Stubbable) :
    (∀ stub, mapGet s.knownStubs obj = some stub →
      mapHas s.knownStubIds stub.rpcId = true →
      addStub s obj = (stub.rpcId, s)) ∧
    (∀ stub, mapGet s.knownStubs obj = some stub →
      mapHas s.knownStubIds stub.rpcId = false →
      s.inCall = false →
      addStub s obj = (stub.rpcId,
        { s with knownStubIds := mapSet s.knownStubIds stub.rpcId obj,
                 sent := s.sent ++ [.newObject ⟨stub.rpcId, stub.methods⟩] })) ∧
    (mapGet s.knownStubs obj = none → s.inCall = false →
      addStub s obj = (mkOid s.socketId s.stubCnt,
        { s with stubCnt := s.stubCnt + 1,
                 knownStubs := mapSet s.knownStubs obj
                   ⟨mkOid s.socketId s.stubCnt, obj, obj.rpcMethods⟩,
                 knownStubIds := mapSet s.knownStubIds (mkOid s.socketId s.stubCnt) obj,
                 sent := s.sent ++
                   [.newObject ⟨mkOid s.socketId s.stubCnt, obj.rpcMethods⟩] })) ∧
    s.stubCnt ≤ (addStub s obj).2.stubCnt ∧
    (∀ c c', mkOid s.socketId c = mkOid s.socketId c' → c = c') := by
  refine ⟨?_, ?_, ?_, ?_, fun c c' h => mkOid_inj h⟩
  · intro stub h1 h2
    simp [addStub, h1, h2]
  · intro stub h1 h2 h3
    simp [addStub, h1, h2, sendMetadata, h3]
  · intro h1 h2
    simp [addStub, h1, sendMetadata, h2]
  · cases h1 : mapGet s.knownStubs obj with
    | some stub =>
      by_cases h2 : mapHas s.knownStubIds stub.rpcId = true
      · simp [addStub, h1, h2]
      · cases h3 : s.inCall with
        | true => simp [addStub, h1, h2, sendMetadata, h3]
        | false => simp [addStub, h1, h2, sendMetadata, h3]
    | none =>
      cases h3 : s.inCall with
      | true => simp [addStub, h1, sendMetadata, h3]
      | false => simp [addStub, h1, sendMetadata, h3]

/-- Witness for C3: a live registration is a no-op returning the existing
oid, and a freed registration re-installs and re-announces. -/
theorem claim3_addStub_witness :
    addStub baseSocket oA = ("A:0", baseSocket) ∧
    addStub freedSocket oA = ("A:0",
      { freedSocket with
          knownStubIds := mapSet freedSocket.knownStubIds "A:0" oA,
          sent := freedSocket.sent ++ [.newObject ⟨"A:0", ["m", "get x"]⟩] }) :=
  ⟨(claim3_addStub baseSocket oA).1 stubA rfl rfl,
   (claim3_addStub freedSocket oA).2.1 stubA rfl rfl rfl⟩

/-- C2: unmarshalling the result of marshalling restores the original
value: primitives and plain data pass through unchanged, arrays are
rebuilt element-wise, each registered stubbable object comes back as the
identical original object and each proxy as the identical proxy; an
`{oid}` marker is resolved first against the stub map, then against the
proxy map.  Hypotheses: proxy oids occurring in `v` are not shadowed by
stub-map entries, and the post-marshalling registries are well-formed
(each hypothesis is checkable on any concrete state). -/
theorem claim2_roundTrip (s : RpcSocket) (v w : Value) (s' : RpcSocket)
    (hm : marshalArg s v = (.ok w, s'))
    (hshadow : ∀ oid ∈ reachOids v, mapGet s'.knownStubIds oid = none)
    (hwf : wfIdsB s' = true) (hinj : stubsInjB s' = true) (hpwf : proxWfB s' = true) :
    unmarshalArg s' w = .ok v ∧
    (∀ p, marshalArg s (.prim p) = (.ok (.prim p), s)) ∧
    (∀ fs, marshalArg s (.record fs) = (.ok (.record fs), s)) ∧
    (∀ oid o, mapGet s'.knownStubIds oid = some o →
      unmarshalArg s' (.oidObj oid) = .ok (.stubObj o)) ∧
    (∀ oid px, mapGet s'.knownStubIds oid = none → mapGet s'.knownProxies oid = some px →
      unmarshalArg s' (.oidObj oid) = .ok (.oidObj px.rpcId)) := by
  refine ⟨(marshal_roundTrip_main (sizeOf v)).1 s v w s' hm le_rfl s' (Growth_refl s')
      hshadow (wfIdsB_spec hwf) (stubsInjB_spec hinj) (proxWfB_spec hpwf),
    fun p => rfl, fun fs => rfl, ?_, ?_⟩
  · intro oid o h
    simp [unmarshalArg, h]
  · intro oid px h1 h2
    simp [unmarshalArg, h1, h2]

/-- Witness for C2 on a mixed payload: a live registered stubbable, a
proxy, a number, and a plain record round-trip to the original value. -/
theorem claim2_roundTrip_witness :
    unmarshalArg baseSocket
        (.arr [.oidObj "A:0", .oidObj "B:0", .prim (.num 7),
               .record [("a", .prim (.str "x"))]]) =
      .ok (.arr [.stubObj oA, .oidObj "B:0", .prim (.num 7),
               .record [("a", .prim (.str "x"))]]) :=
  (claim2_roundTrip baseSocket
    (.arr [.stubObj oA, .oidObj "B:0", .prim (.num 7), .record [("a", .prim (.str "x"))]])
    (.arr [.oidObj "A:0", .oidObj "B:0", .prim (.num 7), .record [("a", .prim (.str "x"))]])
    baseSocket rfl (by decide) (by decide) (by decide) (by decide)).1

/-- C4 (amended): on a transport `'error'` event, every pending call's
promise is rejected exactly once with a closed-endpoint error carrying
code `ERR_SOCKET_CLOSED`, the pending-call table is emptied, and the
transport error is then re-emitted.  Transport `'end'` and `'close'`
events reject nothing: `'end'` only re-emits and `'close'` only sets the
closed flag, leaving the pending-call table untouched. -/
theorem claim4_closure_cascade (s : RpcSocket) (err : JsError) :
    (onSocketError s err).1.pendingCalls = [] ∧
    (onSocketError s err).2.1 = s.pendingCalls.map (fun id => (id, socketClosedError)) ∧
    (s.pendingCalls.Nodup → ∀ id ∈ s.pendingCalls,
      (onSocketError s err).2.1.count (id, socketClosedError) = 1) ∧
    socketClosedError.code = some (.str "ERR_SOCKET_CLOSED") ∧
    (onSocketError s err).2.2 = [.errorEv err] ∧
    (onSocketEnd s).1 = s ∧ (onSocketEnd s).2.1 = [] ∧
    (∀ b, (onSocketClose s b).2.1 = []) ∧
    (∀ b, (onSocketClose s b).1.pendingCalls = s.pendingCalls) ∧
    (∀ b, (onSocketClose s b).1.ended = true) := by
  refine ⟨rfl, rfl, ?_, rfl, rfl, rfl, rfl, fun b => rfl, fun b => rfl, fun b => rfl⟩
  intro hnd id hid
  have hcnt : ∀ (l : List Nat),
      (l.map (fun i => (i, socketClosedError))).count (id, socketClosedError) =
        l.count id := by
    intro l
    induction l with
    | nil => rfl
    | cons a rest ih =>
      simp only [List.map_cons, List.count_cons, ih]
      congr 1
      simp [Prod.ext_iff]
  simp only [onSocketError, failAllCalls]
  rw [hcnt s.pendingCalls]
  exact List.count_eq_one_of_mem hnd hid

/-- Witness for C4 at a concrete endpoint with pending call 7. -/
theorem claim4_closure_cascade_witness :
    (onSocketError pendingSocket socketClosedError).2.1.count (7, socketClosedError) = 1 :=
  (claim4_closure_cascade pendingSocket socketClosedError).2.2.1
    (by decide) 7 (by decide)

/-- C4 counterexample: at a transport `'close'` (endpoint closure), the
pending call 7 is NOT rejected (zero rejections are emitted) and the
pending-call table is NOT emptied, contradicting the claim that closure
by transport end/close rejects every pending call and empties the table. -/
theorem claim4_closure_cascade_cex :
    (onSocketClose pendingSocket true).2.1.count (7, socketClosedError) = 0 ∧
    (onSocketClose pendingSocket true).2.1 = [] ∧
    (onSocketClose pendingSocket true).1.pendingCalls = [7] ∧
    ¬((onSocketClose pendingSocket true).1.pendingCalls = []) := by
  refine ⟨rfl, rfl, rfl, ?_⟩
  intro h
  simp [onSocketClose, pendingSocket] at h

/-- C8 (amended): for every reply frame whose id matches a pending call,
the entry is removed from the pending table and the promise is settled
exactly once (one settlement event is produced): if the `error` field is
present and non-empty (JS-truthy) the promise rejects with a
`SyntaxError` when `error` is `'SyntaxError'`, a `TypeError` when it is
`'TypeError'`, and otherwise a generic error built from the `error`
string, copying `code` when present and `stack` when present and
non-empty; if neither `error` nor `reply` is present the promise resolves
to `undefined`; otherwise the `reply` field is unmarshalled and resolves
the promise, an unmarshalling failure rejecting the same promise.  A
reply whose id matches no pending call changes no endpoint state. -/
theorem claim8_reply_matching (s : RpcSocket) (msg : ReplyMessage) (idn : Nat)
    (hid : msg.id = .val idn) (hpend : s.pendingCalls.contains idn = true) :
    (handleReply s msg).1 = { s with pendingCalls := s.pendingCalls.erase idn } ∧
    (strTruthy msg.error = true →
      (handleReply s msg).2 = some (idn, .rejected (replyError msg))) ∧
    (msg.error = some "SyntaxError" →
      (replyError msg).name = "SyntaxError" ∧
      (replyError msg).message = msg.message.getD "") ∧
    (msg.error = some "TypeError" →
      (replyError msg).name = "TypeError" ∧
      (replyError msg).message = msg.message.getD "") ∧
    (∀ e, msg.error = some e → e ≠ "SyntaxError" → e ≠ "TypeError" →
      (replyError msg).name = "Error" ∧ (replyError msg).message = e) ∧
    (∀ c, msg.code = some c → (replyError msg).code = some c) ∧
    (∀ st, msg.stack = some st → st ≠ "" → (replyError msg).stack = some st) ∧
    (strTruthy msg.error = false →
      (handleReply s msg).2 =
        match unmarshalArg { s with pendingCalls := s.pendingCalls.erase idn } msg.reply with
        | .ok v => some (idn, .resolved v)
        | .error e => some (idn, .rejected e)) ∧
    (msg.error = none → msg.reply = .prim .undef →
      (handleReply s msg).2 = some (idn, .resolved (.prim .undef))) ∧
    (∀ (s2 : RpcSocket) (msg2 : ReplyMessage) (idn2 : Nat), msg2.id = .val idn2 →
      s2.pendingCalls.contains idn2 = false → handleReply s2 msg2 = (s2, none)) := by
  have hmem : idn ∈ s.pendingCalls := by simpa using hpend
  refine ⟨?_, ?_, ?_, ?_, ?_, ?_, ?_, ?_, ?_, ?_⟩
  · by_cases ht : strTruthy msg.error = true
    · simp [handleReply, hid, hpend, hmem, ht]
    · simp only [Bool.not_eq_true] at ht
      simp only [handleReply, hid, hpend, Bool.not_true, Bool.false_eq_true, if_false, ht]
      split
      · rfl
      · rfl
  · intro ht
    simp [handleReply, hid, hpend, hmem, ht]
  · intro he
    rcases hc : msg.code with _ | c <;> rcases hstk : msg.stack with _ | st <;>
        simp only [replyError, he, hc, hstk, reduceIte] <;>
      first
        | (simp [syntaxError]; done)
        | (split <;> simp_all [syntaxError])
  · intro he
    rcases hc : msg.code with _ | c <;> rcases hstk : msg.stack with _ | st <;>
        simp only [replyError, he, hc, hstk, reduceIte] <;>
      first
        | (simp [typeError]; done)
        | (split <;> simp_all [typeError])
  · intro e he hs ht
    rcases hc : msg.code with _ | c <;> rcases hstk : msg.stack with _ | st <;>
        simp only [replyError, he, hc, hstk, Option.some.injEq] <;>
      first
        | (simp [hs, ht]; done)
        | (split <;> simp_all [hs, ht])
  · intro c hc
    rcases hstk : msg.stack with _ | st <;> simp only [replyError, hc, hstk] <;>
      first
        | (simp; done)
        | (split <;> simp_all)
  · intro st hst hne
    simp only [replyError, hst]
    rw [if_neg hne]
  · intro ht
    simp only [handleReply, hid, hpend, Bool.not_true, Bool.false_eq_true, if_false, ht]
    split
    · rename_i v heq
      simp [heq]
    · rename_i e heq
      simp [heq]
  · intro he hr
    have ht : strTruthy msg.error = false := by simp [strTruthy, he]
    simp only [handleReply, hid, hpend, Bool.not_true, Bool.false_eq_true, if_false, ht, hr]
    split
    · rename_i v heq
      simp only [unmarshalArg, Except.ok.injEq] at heq
      rw [← heq]
    · rename_i e heq
      simp only [unmarshalArg] at heq
      cases heq
  · intro s2 msg2 idn2 hid2 hpend2
    have hmem2 : ¬(idn2 ∈ s2.pendingCalls) := by simpa using hpend2
    simp [handleReply, hid2, hmem2]

/-- Witness for C8 at a concrete error reply carrying code and stack. -/
theorem claim8_reply_matching_witness :
    (handleReply pendingSocket
        ⟨.val 7, some "boom", none, some "st", some (.num 3), .prim .undef⟩).2 =
      some (7, .rejected ⟨"Error", "boom", some "st", some (.num 3), none⟩) :=
  (claim8_reply_matching pendingSocket
      ⟨.val 7, some "boom", none, some "st", some (.num 3), .prim .undef⟩ 7
      rfl rfl).2.1 rfl

/-- C8 counterexample: a reply whose `error` field is PRESENT but equal to
the empty string is falsy in JS, so `_handleReply` resolves the promise
with the unmarshalled `reply` payload instead of rejecting it — the
claim's "if the error field is present it rejects" fails at this input. -/
theorem claim8_reply_matching_cex :
    (handleReply pendingSocket emptyErrReply).2 = some (7, .resolved (.prim (.str "ok"))) ∧
    ¬∃ e : JsError, (handleReply pendingSocket emptyErrReply).2 = some (7, .rejected e) := by
  constructor
  · rfl
  · rintro ⟨e, he⟩
    rw [show (handleReply pendingSocket emptyErrReply).2 =
      some (7, .resolved (.prim (.str "ok"))) from rfl] at he
    simp at he

/-- C1 (amended): on a successful outbound `call`, every `new-object`
announcement buffered while marshalling that call's arguments is written
strictly before the `call` frame, in buffer order; and every oid at a
marshallable position of the call's `params` is either introduced by one
of those buffered `new-object` frames, or refers to an oid already
present in the endpoint's registries at call start — a previously
announced stub (same direction) or a proxy, which was introduced by a
`new-object` frame of the peer (the opposite direction), not of this
endpoint. -/
theorem claim1_ordering (s : RpcSocket) (obj method : String) (args : List Value)
    (marshalled : List Value) (s2 : RpcSocket)
    (hin : s.inCall = false) (hend : s.ended = false) (hbuf : s.newObjects = [])
    (hm : marshalList { s with inCall := true } args = (.ok marshalled, s2)) :
    (callRpc s obj method args).1 = .pendingPromise s.callId ∧
    (callRpc s obj method args).2.sent =
      s.sent ++ s2.newObjects.map Message.newObject ++
        [.call s.callId obj method marshalled] ∧
    (∀ oid ∈ reachOidsList marshalled,
      (∃ ms, NewObjectMsg.mk oid ms ∈ s2.newObjects) ∨
      mapHas s.knownStubIds oid = true ∨ mapHas s.knownProxies oid = true) := by
  have hpre := marshalList_mpre { s with inCall := true } args
  rw [hm] at hpre
  obtain ⟨_, _, _, hcid, _, _, hsent, _⟩ := hpre
  have hsent2 : s2.sent = s.sent := hsent rfl
  have hcid2 : s2.callId = s.callId := hcid
  have hcover := marshalList_cover { s with inCall := true } args marshalled s2 hm rfl
  have hni : ¬(s.inCall = true) := by simp [hin]
  have hne : ¬(s.ended = true) := by simp [hend]
  have hcall : callRpc s obj method args =
      (.pendingPromise s2.callId,
        { s2 with
          sent := s2.sent ++ s2.newObjects.map Message.newObject ++
            [.call s2.callId obj method marshalled],
          newObjects := [],
          inCall := false,
          callId := s2.callId + 1,
          pendingCalls := s2.pendingCalls ++ [s2.callId] }) := by
    unfold callRpc
    rw [if_neg hni, if_neg hne, hm]
  refine ⟨?_, ?_, ?_⟩
  · rw [hcall, hcid2]
  · rw [hcall, hcid2]
    simp [hsent2]
  · intro oid hoid
    rcases hcover oid hoid with h | h | h
    · exact Or.inr (Or.inr h)
    · exact Or.inr (Or.inl h)
    · exact Or.inl h

/-- Witness for C1: marshalling a fresh stubbable buffers its announcement
and flushes it onto the wire strictly before the `call` frame that
references its oid. -/
theorem claim1_ordering_witness :
    (callRpc baseSocket "B:0" "m" [.stubObj oFresh]).2.sent =
      [.newObject ⟨"A:1", ["n"]⟩, .call 0 "B:0" "m" [.oidObj "A:1"]] := by
  have h := (claim1_ordering baseSocket "B:0" "m" [.stubObj oFresh] [.oidObj "A:1"]
    (marshalList { baseSocket with inCall := true } [.stubObj oFresh]).2
    rfl rfl rfl rfl).2.1
  exact h

/-- C1 counterexample: an endpoint that received a proxy for oid `"p"`
from its peer and passes that proxy as a call argument writes a `call`
frame referencing `"p"` with NO `new-object` frame for `"p"` anywhere on
its own outbound wire: the oid was introduced by the peer's direction, so
the claim's "every oid referenced in the call's params is introduced by an
earlier new-object frame in the same direction" is false as stated. -/
theorem claim1_ordering_cex : ¬ allParamOidsIntroduced cexC1sent := by
  intro h
  have h0 := h 0 0 "t" "m" [.oidObj "p"] rfl "p" (by simp [reachOidsList, reachOids])
  obtain ⟨j, hj, _⟩ := h0
  omega

/-- C7: for every inbound call on a live stub (with unmarshallable
arguments): a plain method name not in the stub's snapshot fails with an
invalid-method error; a `get NAME` method fails with a wrong-arity error
unless it has exactly zero arguments, and with an invalid-method error
when `get NAME` is not in the snapshot; a `set NAME` method fails with a
wrong-arity error unless it has exactly one argument, and is authorised
if and only if `get NAME` is in the snapshot (the deliberate asymmetry);
any other snapshot method is invoked with its unmarshalled arguments
passed through verbatim.  Arity is checked before snapshot membership,
matching the source order. -/
theorem claim7_invocation (env : TargetEnv) (s : RpcSocket) (idn : Nat)
    (oid method : String) (ps unm : List Value) (o : Stubbable) (stub : RpcStub)
    (hend : s.ended = false)
    (hids : mapGet s.knownStubIds oid = some o)
    (hstub : mapGet s.knownStubs o = some stub)
    (hunm : unmarshalList s ps = .ok unm) :
    (method.take 4 ≠ "get " → method.take 4 ≠ "set " →
      stub.methods.contains method = false →
      handleCall env s ⟨.val idn, oid, method, .arr ps⟩ =
        ({ s with sent := s.sent ++
            [.reply (classifyError idn (typeError ("Invalid method " ++ method)))] },
          none)) ∧
    (method.take 4 = "get " → unm ≠ [] →
      handleCall env s ⟨.val idn, oid, method, .arr ps⟩ =
        ({ s with sent := s.sent ++
            [.reply (classifyError idn
              (typeError "Wrong number of arguments, expected 0"))] }, none)) ∧
    (method.take 4 = "get " → unm = [] →
      stub.methods.contains ("get " ++ method.drop 4) = false →
      handleCall env s ⟨.val idn, oid, method, .arr ps⟩ =
        ({ s with sent := s.sent ++
            [.reply (classifyError idn
              (typeError ("Invalid method " ++ ("get " ++ method.drop 4))))] }, none)) ∧
    (method.take 4 = "set " → unm.length ≠ 1 →
      handleCall env s ⟨.val idn, oid, method, .arr ps⟩ =
        ({ s with sent := s.sent ++
            [.reply (classifyError idn
              (typeError "Wrong number of arguments, expected 1"))] }, none)) ∧
    (∀ v, method.take 4 = "set " → unm = [v] →
      stub.methods.contains ("get " ++ method.drop 4) = true →
      env.setF stub.object (method.drop 4) v = .ok () →
      handleCall env s ⟨.val idn, oid, method, .arr ps⟩ =
        ({ s with sent := s.sent ++
            [.reply ⟨.val idn, none, none, none, none, .prim .undef⟩] },
          some (.setP stub.object (method.drop 4) v))) ∧
    (∀ v, method.take 4 = "set " → unm = [v] →
      stub.methods.contains ("get " ++ method.drop 4) = false →
      handleCall env s ⟨.val idn, oid, method, .arr ps⟩ =
        ({ s with sent := s.sent ++
            [.reply (classifyError idn
              (typeError ("Invalid method " ++ ("get " ++ method.drop 4))))] }, none)) ∧
    (∀ rv mv s1, method.take 4 ≠ "get " → method.take 4 ≠ "set " →
      stub.methods.contains method = true →
      env.callF stub.object method unm = .ok rv →
      marshalArg s rv = (.ok mv, s1) →
      handleCall env s ⟨.val idn, oid, method, .arr ps⟩ =
        ({ s1 with sent := s1.sent ++ [.reply ⟨.val idn, none, none, none, none, mv⟩] },
          some (.invoked stub.object method unm))) := by
  have hhas : mapHas s.knownStubIds oid = true := by simp [mapHas, hids]
  refine ⟨?_, ?_, ?_, ?_, ?_, ?_, ?_⟩
  · intro hg hs hc
    have hc2 : ¬(method ∈ stub.methods) := by simpa using hc
    simp [handleCall, handleCallTry, hhas, hids, hstub, hunm, dispatchMethod,
      hg, hs, hc, hc2, hend]
  · intro hg hne
    simp [handleCall, handleCallTry, hhas, hids, hstub, hunm, dispatchMethod,
      hg, hne, hend]
  · intro hg hnil hc
    have hc2 : ¬(("get " ++ method.drop 4) ∈ stub.methods) := by simpa using hc
    simp [handleCall, handleCallTry, hhas, hids, hstub, hunm, dispatchMethod,
      hg, hnil, hc, hc2, hend]
  · intro hs hlen
    simp [handleCall, handleCallTry, hhas, hids, hstub, hunm, dispatchMethod,
      hs, hlen, hend]
  · intro v hs hv hc hset
    subst hv
    have hc2 : ("get " ++ method.drop 4) ∈ stub.methods := by simpa using hc
    simp [handleCall, handleCallTry, hhas, hids, hstub, hunm, dispatchMethod,
      hs, hc, hc2, hset, hend, marshalArg]
  · intro v hs hv hc
    subst hv
    have hc2 : ¬(("get " ++ method.drop 4) ∈ stub.methods) := by simpa using hc
    simp [handleCall, handleCallTry, hhas, hids, hstub, hunm, dispatchMethod,
      hs, hc, hc2, hend]
  · intro rv mv s1 hg hs hc hcall hmar
    have hc2 : method ∈ stub.methods := by simpa using hc
    simp [handleCall, handleCallTry, hhas, hids, hstub, hunm, dispatchMethod,
      hg, hs, hc, hc2, hcall, hmar, hend]

/-- Witness for C7: a snapshot method is invoked with its arguments passed
through verbatim and its marshalled return value is written as the reply. -/
theorem claim7_invocation_witness :
    handleCall envTest baseSocket ⟨.val 3, "A:0", "m", .arr [.prim (.num 5)]⟩ =
      ({ baseSocket with sent := baseSocket.sent ++
          [.reply ⟨.val 3, none, none, none, none, .arr [.prim (.num 5)]⟩] },
        some (.invoked oA "m" [.prim (.num 5)])) :=
  (claim7_invocation envTest baseSocket 3 "A:0" "m" [.prim (.num 5)] [.prim (.num 5)]
      oA stubA rfl rfl rfl rfl).2.2.2.2.2.2
    (.arr [.prim (.num 5)]) (.arr [.prim (.num 5)]) baseSocket
    (by decide) (by decide) rfl rfl rfl

end Rpc
